import Mathlib

/-!
Verification development for a terminal ADS-B radar display written in C
(aircraft_display_with_radar.c).  The program maintains two character
grids: a pending canvas rebuilt from fetched aircraft and weather data,
and a visible canvas revealed cell by cell by a rotating radar sweep.
It projects aircraft coordinates onto the grid, overlays synthetic
weather intensities, and renders the result.

Modelling conventions:
* C int is modelled by Int; C integer division and casts from double to
  int that truncate toward zero are modelled by Int.tdiv and explicit
  truncation functions.
* C double arithmetic is modelled by exact arithmetic over Rat where the
  code only performs field operations, and over Real where the code calls
  sqrt, sin, cos or atan2 from libm.
* The two per-cell arrays of the C Matrix struct (data and weather) are
  modelled as total functions from integer coordinates, collected in the
  Canvas structure; array writes become pointwise function updates.
* Library text formatting (snprintf) is modelled by explicit list-of-char
  construction; the decimal rendering of a C double (format %.1f) is
  taken as an input, since binary floating-point formatting is external
  to the embedding.
-/

namespace Radar

/-- Truncation toward zero of a rational: the semantics of a C cast from
double to int, applied to an exactly represented rational value. -/
def truncQ (q : ℚ) : ℤ := if 0 ≤ q then ⌊q⌋ else ⌈q⌉

/-- Reference latitude of LSZH, from the LSZH_LAT define. -/
def LSZH_LAT : ℚ := 47.458056

/-- Reference longitude of LSZH, from the LSZH_LON define. -/
def LSZH_LON : ℚ := 8.548056

/-- Display range in nautical miles, from the RANGE_NM define. -/
def RANGE_NM : ℚ := 20

/-- Feet per meter conversion factor used in main. -/
def FT_PER_M : ℚ := 3.28084

/-- Knots per meter-per-second conversion factor used in main. -/
def KT_PER_MS : ℚ := 1.94384

/-- Altitude in feet as computed in main: truncating cast of
altitude-in-meters times 3.28084. -/
def altitude_ft (m : ℚ) : ℤ := truncQ (m * FT_PER_M)

/-- Ground speed in knots as computed in main: truncating cast of
velocity-in-meters-per-second times 1.94384. -/
def speed_kts (v : ℚ) : ℤ := truncQ (v * KT_PER_MS)

/-- Dual-channel character grid of the C Matrix struct: sym models the
data array (sym x y is data[y][x]), wx models the weather array. -/
structure Canvas where
  sym : ℤ → ℤ → Char
  wx : ℤ → ℤ → ℕ

/-- Pointwise write of one character into the symbol channel,
modelling a single assignment data[y][x] = ch. -/
def setSym (cv : Canvas) (x y : ℤ) (ch : Char) : Canvas :=
  { sym := fun a b => if a = x ∧ b = y then ch else cv.sym a b, wx := cv.wx }

/-- Apply a list of symbol-channel writes (x, y, ch) in order. -/
def applyEvents (cv : Canvas) (evts : List (ℤ × ℤ × Char)) : Canvas :=
  evts.foldl (fun c e => setSym c e.1 e.2.1 e.2.2) cv

/-- Writes emitted by display_symbol: an X at column x*2, row y,
guarded by the bounds check of the function. -/
def display_symbol_writes (w h x y : ℤ) : List (ℤ × ℤ × Char) :=
  if 0 ≤ x * 2 ∧ x * 2 < w ∧ 0 ≤ y ∧ y < h then [(x * 2, y, 'X')] else []

/-- Writes emitted by display_slash: a slash at column (x+1)*2, row y-1,
guarded by the bounds check of the function. -/
def display_slash_writes (w h x y : ℤ) : List (ℤ × ℤ × Char) :=
  if 0 ≤ (x + 1) * 2 ∧ (x + 1) * 2 < w ∧ 0 ≤ y - 1 ∧ y - 1 < h then
    [((x + 1) * 2, y - 1, '/')]
  else []

/-- Writes of one text row starting at column x on row y: the C loop
stops at the terminating NUL or at the first column reaching width. -/
def writeLine (w y : ℤ) : ℤ → List Char → List (ℤ × ℤ × Char)
  | _, [] => []
  | x, ch :: rest => if x < w then (x, y, ch) :: writeLine w y (x + 1) rest else []

/-- Text of the altitude label row built by snprintf in display_info. -/
def fmtAlt (alt : ℤ) : List Char := "Alt:".data ++ (toString alt).data ++ "ft".data

/-- Text of the speed label row built by snprintf in display_info. -/
def fmtSpd (spd : ℤ) : List Char := "Spd:".data ++ (toString spd).data ++ "kt".data

/-- Text of the distance label row built by snprintf in display_info; the
one-decimal rendering of the C double distance is taken as an input. -/
def fmtDst (dst : List Char) : List Char := "Dst:".data ++ dst ++ "nm".data

/-- Writes emitted by display_info: four label rows anchored at row y-5,
column (x+1)*2, emitted only when row y-5 itself is in vertical bounds;
the callsign is truncated to 8 characters by the %.8s format. -/
def display_info_writes (h w x y : ℤ) (callsign : List Char) (alt spd : ℤ)
    (dst : List Char) : List (ℤ × ℤ × Char) :=
  if 0 ≤ y - 5 ∧ y - 5 < h then
    writeLine w (y - 5) ((x + 1) * 2) (callsign.take 8) ++
    writeLine w (y - 4) ((x + 1) * 2) (fmtAlt alt) ++
    writeLine w (y - 3) ((x + 1) * 2) (fmtSpd spd) ++
    writeLine w (y - 2) ((x + 1) * 2) (fmtDst dst)
  else []

/-- Screen projection latlon_to_screen: local equirectangular offsets in
nautical miles, scaled to grid columns and rows, then clamped.  The
cosine of the reference latitude, computed by libm in C, enters as the
parameter cosRefLat; no theorem below depends on its value. -/
def latlon_to_screen (cosRefLat : ℚ) (lat lon : ℚ) (width height : ℤ) : ℤ × ℤ :=
  let lat_diff := lat - LSZH_LAT
  let lon_diff := lon - LSZH_LON
  let y_nm := lat_diff * 60
  let x_nm := lon_diff * 60 * cosRefLat
  let sx0 := width.tdiv 4 + truncQ (x_nm * ((width.tdiv 4 : ℤ) : ℚ) / RANGE_NM)
  let sy0 := height.tdiv 2 - truncQ (y_nm * ((height.tdiv 2 : ℤ) : ℚ) / RANGE_NM)
  let sx1 := if sx0 < 0 then 0 else sx0
  let sx2 := if width.tdiv 2 ≤ sx1 then width.tdiv 2 - 1 else sx1
  let sy1 := if sy0 < 6 then 6 else sy0
  let sy2 := if height ≤ sy1 then height - 1 else sy1
  (sx2, sy2)

/-- Aircraft record as held by main after fetching: callsign (already
trimmed by the fetcher), position, altitude in meters, velocity in
meters per second, and the rendered distance text for the label. -/
structure Aircraft where
  callsign : List Char
  latitude : ℚ
  longitude : ℚ
  altitude : ℚ
  velocity : ℚ
  distStr : List Char

/-- Drawing of one aircraft in main: project, then emit the symbol, the
slash and the info block onto the pending canvas. -/
def drawAircraft (cosRefLat : ℚ) (w h : ℤ) (pending : Canvas) (ac : Aircraft) : Canvas :=
  let p := latlon_to_screen cosRefLat ac.latitude ac.longitude w h
  applyEvents pending
    (display_symbol_writes w h p.1 p.2 ++ display_slash_writes w h p.1 p.2 ++
      display_info_writes h w p.1 p.2 ac.callsign (altitude_ft ac.altitude)
        (speed_kts ac.velocity) ac.distStr)

/-- Per-aircraft step of the display loop in main: the aircraft is skipped
(continue) when altitude_ft <= 1800 or speed_kts <= 60, else drawn. -/
def processAircraft (cosRefLat : ℚ) (w h : ℤ) (pending : Canvas) (ac : Aircraft) : Canvas :=
  if altitude_ft ac.altitude ≤ 1800 ∨ speed_kts ac.velocity ≤ 60 then pending
  else drawAircraft cosRefLat w h pending ac

/-- Weather merge step of fetch_weather_data: the cell keeps the larger of
its current intensity and the candidate intensity. -/
def mergeWeather (cur cand : ℕ) : ℕ := if cur < cand then cand else cur

/-- Dimensions produced by create_square_matrix: height n, width 2n. -/
def create_square_matrix_dims (n : ℕ) : ℕ × ℕ := (n, 2 * n)

/-- Maximum sweep radius computed in sonar_sweep_update and in main:
the truncating cast (int)sqrt(cx*cx + cy*cy) plus one.  For the integer
magnitudes of this program the correctly rounded double sqrt truncates to
the floor square root, which is Nat.sqrt. -/
def sweep_max_radius (height width : ℕ) : ℕ :=
  Nat.sqrt ((width / 2) * (width / 2) + (height / 2) * (height / 2)) + 1

/-- Modelled from the spec: ceiling square root, for the spec formula
ceil(sqrt(cx^2 + cy^2)) + 1 of the Sweep Compositor parameters. -/
def ceilSqrt (s : ℕ) : ℕ := if Nat.sqrt s * Nat.sqrt s = s then Nat.sqrt s else Nat.sqrt s + 1

/-- Modelled from the spec: the maximum-radius formula as the spec words
it, ceil(sqrt(centerX^2 + centerY^2)) + 1. -/
def spec_max_radius (height width : ℕ) : ℕ :=
  ceilSqrt ((width / 2) * (width / 2) + (height / 2) * (height / 2)) + 1

/-- One write of the sweep radius loop: the pending cell at the
rasterized coordinates is copied into the visible canvas when in bounds.
X r and Y r stand for centerX + (int)(r * cos theta) and
centerY + (int)(r * sin theta), the truncated polar rasterization of the
C code; the theorems below hold for every such coordinate map. -/
def sweepWrite (wd ht : ℤ) (X Y : ℕ → ℤ) (pending : Canvas) (vis : Canvas) (r : ℕ) : Canvas :=
  if 0 ≤ X r ∧ X r < wd ∧ 0 ≤ Y r ∧ Y r < ht then
    { sym := fun a b => if a = X r ∧ b = Y r then pending.sym (X r) (Y r) else vis.sym a b,
      wx := fun a b => if a = X r ∧ b = Y r then pending.wx (X r) (Y r) else vis.wx a b }
  else vis

/-- One angle step of the sweep: the radius loop runs ascending from 0 to
maxR inclusive, copying pending into visible at each in-bounds cell. -/
def sonar_sweep_step (wd ht : ℤ) (X Y : ℕ → ℤ) (maxR : ℕ) (pending vis : Canvas) : Canvas :=
  (List.range (maxR + 1)).foldl (sweepWrite wd ht X Y pending) vis

/-- Radius r lands on cell (x, y) and that cell is in bounds. -/
def hitsCell (wd ht : ℤ) (X Y : ℕ → ℤ) (x y : ℤ) (r : ℕ) : Prop :=
  X r = x ∧ Y r = y ∧ 0 ≤ x ∧ x < wd ∧ 0 ≤ y ∧ y < ht

instance (wd ht : ℤ) (X Y : ℕ → ℤ) (x y : ℤ) (r : ℕ) :
    Decidable (hitsCell wd ht X Y x y r) := by
  unfold hitsCell; infer_instance

/-- Symbol-channel clear of the aircraft-refresh block in main: every
data cell becomes a blank, the weather channel is kept. -/
def clearSymbols (cv : Canvas) : Canvas := { sym := fun _ _ => ' ', wx := cv.wx }

/-- Title text built by snprintf in main. -/
def fmtTitle (count : ℤ) : List Char :=
  "LSZH - Aircraft: ".data ++ (toString count).data ++
    " | Weather: MeteoSwiss Radar (Simulated)".data

/-- Title row write of main: characters of the title into row 0 starting
at column 0, stopping at the width. -/
def writeTitle (cv : Canvas) (w : ℤ) (count : ℤ) : Canvas :=
  applyEvents cv (writeLine w 0 0 (fmtTitle count))

/-- Center marker write of main: a plus sign at column (width/4)*2,
row height/2, under the guard of the code. -/
def drawCenterMarker (cv : Canvas) (w h : ℤ) : Canvas :=
  let cx := w.tdiv 4
  let cy := h.tdiv 2
  if 0 ≤ cy ∧ cy < h ∧ cx * 2 < w then setSym cv (cx * 2) cy '+' else cv

/-- Aircraft-refresh block of main: when the fetch fails (none) nothing
happens; on success the symbol channel is cleared, the title and center
marker are drawn, and each fetched aircraft is processed in order. -/
def aircraft_refresh (cosRefLat : ℚ) (w h : ℤ) (pending : Canvas)
    (result : Option (List Aircraft)) : Canvas :=
  match result with
  | none => pending
  | some acs =>
      acs.foldl (processAircraft cosRefLat w h)
        (drawCenterMarker (writeTitle (clearSymbols pending) w (acs.length : ℤ)) w h)

/-- Aircraft fetch scheduling of main: the fetch block runs only when the
interval has elapsed, and last_fetch_time is set to the current time
whether or not the fetch succeeded. -/
def fetch_step (cosRefLat : ℚ) (w h : ℤ) (pending : Canvas) (t lastFetch interval : ℤ)
    (result : Option (List Aircraft)) : Canvas × ℤ :=
  if interval ≤ t - lastFetch then (aircraft_refresh cosRefLat w h pending result, t)
  else (pending, lastFetch)

/-! Theorems. -/

/-- Floor square root of 18000, the squared corner distance at the
configured canvas size. -/
theorem sqrt_18000_eq : Nat.sqrt 18000 = 134 := by
  have h1 : 134 ≤ Nat.sqrt 18000 := Nat.le_sqrt.mpr (by norm_num)
  have h2 : Nat.sqrt 18000 < 135 := Nat.sqrt_lt.mpr (by norm_num)
  omega

/-- Defining equation of sweep_max_radius, for rewriting at concrete
sizes without forcing kernel evaluation of Nat.sqrt. -/
theorem sweep_max_radius_def (h w : ℕ) :
    sweep_max_radius h w = Nat.sqrt ((w / 2) * (w / 2) + (h / 2) * (h / 2)) + 1 := rfl

/-- Defining equation of ceilSqrt. -/
theorem ceilSqrt_def (s : ℕ) :
    ceilSqrt s = if Nat.sqrt s * Nat.sqrt s = s then Nat.sqrt s else Nat.sqrt s + 1 := rfl

/-- Defining equation of spec_max_radius. -/
theorem spec_max_radius_def (h w : ℕ) :
    spec_max_radius h w = ceilSqrt ((w / 2) * (w / 2) + (h / 2) * (h / 2)) + 1 := rfl

/-- Squared corner distance at the configured size n = 120. -/
theorem config_corner_sq :
    ((240 : ℕ) / 2) * (240 / 2) + (120 / 2) * (120 / 2) = 18000 := by norm_num

/-- C2 counterexample: at the configured canvas size n = 120 (height 120,
width 240, centerX 120, centerY 60) the code computes maximum radius 135,
the truncated square root of 18000 plus one, while the spec formula
ceil(sqrt(18000)) + 1 gives 136; the two disagree. -/
theorem sweep_max_radius_at_config_ne_spec :
    sweep_max_radius 120 240 = 135 ∧ spec_max_radius 120 240 = 136 ∧
      sweep_max_radius 120 240 ≠ spec_max_radius 120 240 := by
  have ha : sweep_max_radius 120 240 = 135 := by
    rw [sweep_max_radius_def, config_corner_sq, sqrt_18000_eq]
  have hb : spec_max_radius 120 240 = 136 := by
    rw [spec_max_radius_def, config_corner_sq, ceilSqrt_def, sqrt_18000_eq]
    norm_num
  exact ⟨ha, hb, by omega⟩

/-- C2 amended: the maximum radius is the floor square root of
centerX^2 + centerY^2 plus one, which is at least the ceiling square
root, so every corner of the canvas is still within reach (the squared
corner distance is below the squared maximum radius); at the configured
size the value is 135. -/
theorem sweep_max_radius_props :
    (∀ h w : ℕ, ceilSqrt ((w / 2) * (w / 2) + (h / 2) * (h / 2)) ≤ sweep_max_radius h w) ∧
    (∀ h w : ℕ, (w / 2) * (w / 2) + (h / 2) * (h / 2) <
        sweep_max_radius h w * sweep_max_radius h w) ∧
    sweep_max_radius 120 240 = 135 := by
  refine ⟨?_, ?_, ?_⟩
  · intro h w
    unfold ceilSqrt sweep_max_radius
    split_ifs <;> omega
  · intro h w
    rw [sweep_max_radius_def]
    have := Nat.lt_succ_sqrt' ((w / 2) * (w / 2) + (h / 2) * (h / 2))
    simpa [Nat.succ_eq_add_one, pow_two] using this
  · rw [sweep_max_radius_def, config_corner_sq, sqrt_18000_eq]

/-- C3: an aircraft is drawn on the pending canvas exactly when its
truncated altitude in feet is strictly above 1800 and its truncated
speed in knots is strictly above 60; an aircraft whose converted
altitude is exactly 1800 ft is excluded even at 61 kt, and an aircraft
at altitude 0 is excluded. -/
theorem aircraft_threshold_filter :
    (∀ c w h p ac, processAircraft c w h p ac =
        if 1800 < altitude_ft ac.altitude ∧ 60 < speed_kts ac.velocity
        then drawAircraft c w h p ac else p) ∧
    altitude_ft 548.65 = 1800 ∧ speed_kts 31.5 = 61 ∧ altitude_ft 0 = 0 ∧
    (∀ c w h p cs lat lon d,
        processAircraft c w h p ⟨cs, lat, lon, 548.65, 31.5, d⟩ = p) ∧
    (∀ c w h p cs lat lon d,
        processAircraft c w h p ⟨cs, lat, lon, 0, 31.5, d⟩ = p) := by
  have hA : altitude_ft 548.65 = 1800 := by
    norm_num [altitude_ft, truncQ, FT_PER_M]
  have hS : speed_kts 31.5 = 61 := by
    norm_num [speed_kts, truncQ, KT_PER_MS]
  have hZ : altitude_ft 0 = 0 := by
    norm_num [altitude_ft, truncQ, FT_PER_M]
  refine ⟨?_, hA, hS, hZ, ?_, ?_⟩
  · intro c w h p ac
    unfold processAircraft
    split_ifs <;> first | rfl | omega
  · intro c w h p cs lat lon d
    simp only [processAircraft]
    rw [if_pos (Or.inl (le_of_eq hA))]
  · intro c w h p cs lat lon d
    simp only [processAircraft]
    rw [if_pos (Or.inl (by rw [hZ]; norm_num : altitude_ft (0 : ℚ) ≤ 1800))]

/-- C7: the weather merge keeps the maximum of the current and candidate
intensities, so it never decreases a cell, and values in the enum range
stay in the enum range. -/
theorem mergeWeather_monotone_max_bounded :
    (∀ cur cand : ℕ, cur ≤ mergeWeather cur cand) ∧
    (∀ cur cand : ℕ, mergeWeather cur cand = max cur cand) ∧
    (∀ cur cand : ℕ, cur ≤ 6 → cand ≤ 6 → mergeWeather cur cand ≤ 6) := by
  refine ⟨?_, ?_, ?_⟩
  · intro cur cand; unfold mergeWeather; split_ifs <;> omega
  · intro cur cand; unfold mergeWeather; rw [Nat.max_def]; split_ifs <;> omega
  · intro cur cand h1 h2; unfold mergeWeather; split_ifs <;> omega

/-- C7 witness at a concrete merge. -/
theorem mergeWeather_bounded_witness : (3 : ℕ) ≤ 6 ∧ (5 : ℕ) ≤ 6 ∧ mergeWeather 3 5 ≤ 6 :=
  ⟨by decide, by decide, mergeWeather_monotone_max_bounded.2.2 3 5 (by decide) (by decide)⟩

/-- An all-blank canvas, used as a concrete pending canvas in witnesses. -/
def blankCanvas : Canvas := { sym := fun _ _ => ' ', wx := fun _ _ => 0 }

/-- C8: when the aircraft fetch fails at a due fetch time, the pending
canvas is returned unchanged in both channels, and the last-fetch time is
still advanced to the current time, so the next attempt happens one full
interval later. -/
theorem fetch_failure_keeps_pending (c : ℚ) (w h : ℤ) (p : Canvas) (t lf iv : ℤ)
    (hdue : iv ≤ t - lf) : fetch_step c w h p t lf iv none = (p, t) := by
  simp [fetch_step, aircraft_refresh, hdue]

/-- C8 witness at concrete times and a concrete canvas. -/
theorem fetch_failure_keeps_pending_witness :
    (10 : ℤ) ≤ 20 - 5 ∧ fetch_step 0 240 120 blankCanvas 20 5 10 none = (blankCanvas, 20) :=
  ⟨by decide, fetch_failure_keeps_pending 0 240 120 blankCanvas 20 5 10 (by decide)⟩

/-- Membership in a text-row write list: a write happens exactly for the
character indices that exist and whose column is still left of the right
edge, the per-character clipping of the C loops. -/
theorem writeLine_mem_iff (w y : ℤ) (s : List Char) (x0 : ℤ) (e1 e2 : ℤ) (e3 : Char) :
    (e1, e2, e3) ∈ writeLine w y x0 s ↔
      ∃ i : ℕ, s.get? i = some e3 ∧ e1 = x0 + i ∧ e2 = y ∧ x0 + i < w := by
  induction s generalizing x0 with
  | nil => simp [writeLine]
  | cons ch rest ih =>
    by_cases hx : x0 < w
    · rw [writeLine, if_pos hx]
      constructor
      · intro hmem
        rcases List.mem_cons.mp hmem with he | htail
        · simp only [Prod.mk.injEq] at he
          obtain ⟨he1, he2, he3⟩ := he
          exact ⟨0, by simp [he3], by push_cast; omega, he2, by push_cast; omega⟩
        · rcases (ih (x0 + 1)).mp htail with ⟨i, hg, h1, h2, hlt⟩
          exact ⟨i + 1, by simpa using hg, by push_cast; omega, h2, by push_cast; omega⟩
      · rintro ⟨i, hg, h1, h2, hlt⟩
        cases i with
        | zero =>
          have hch : ch = e3 := by simpa using hg
          have he1 : e1 = x0 := by omega
          exact List.mem_cons.mpr (Or.inl (by rw [he1, h2, hch]))
        | succ n =>
          refine List.mem_cons.mpr (Or.inr ((ih (x0 + 1)).mpr ⟨n, by simpa using hg, by push_cast at h1 ⊢; omega, h2, by push_cast at hlt ⊢; omega⟩))
    · rw [writeLine, if_neg hx]
      simp only [List.not_mem_nil, false_iff]
      rintro ⟨i, hg, h1, h2, hlt⟩
      have : (0 : ℤ) ≤ (i : ℤ) := Int.natCast_nonneg i
      omega

/-- C6 counterexample: with the canvas height 120 and anchor row 130 the
anchor is not above the top (130 - 5 = 125 is nonnegative), yet no label
character at all is emitted, because the code also skips the whole block
when row y - 5 is at or below the bottom edge. -/
theorem display_info_skipped_above_bottom :
    display_info_writes 120 240 0 130 ("A".data) 2000 70 ("9".data) = [] ∧
      ¬((130 : ℤ) - 5 < 0) := ⟨by decide, by decide⟩

/-- Every write of a text row lands strictly left of the right edge. -/
theorem writeLine_col_lt (w y : ℤ) (s : List Char) (x0 : ℤ) (e : ℤ × ℤ × Char)
    (he : e ∈ writeLine w y x0 s) : e.1 < w := by
  induction s generalizing x0 with
  | nil => simp [writeLine] at he
  | cons ch rest ih =>
    rw [writeLine] at he
    by_cases hx : x0 < w
    · rw [if_pos hx] at he
      rcases List.mem_cons.mp he with rfl | htail
      · exact hx
      · exact ih (x0 + 1) htail
    · rw [if_neg hx] at he
      exact absurd he (List.not_mem_nil _)

/-- C6 amended: the label block is skipped in its entirety when row y - 5
is above the top edge, and likewise when row y - 5 is at or below the
bottom edge; otherwise all four rows are emitted starting at row y - 5,
column 2(x+1), and every emitted character lies strictly left of the
right edge (per-character clipping). -/
theorem display_info_block (h w x y : ℤ) (cs : List Char) (alt spd : ℤ) (dst : List Char) :
    (y - 5 < 0 → display_info_writes h w x y cs alt spd dst = []) ∧
    (h ≤ y - 5 → display_info_writes h w x y cs alt spd dst = []) ∧
    (0 ≤ y - 5 → y - 5 < h →
      display_info_writes h w x y cs alt spd dst =
        writeLine w (y - 5) ((x + 1) * 2) (cs.take 8) ++
        writeLine w (y - 4) ((x + 1) * 2) (fmtAlt alt) ++
        writeLine w (y - 3) ((x + 1) * 2) (fmtSpd spd) ++
        writeLine w (y - 2) ((x + 1) * 2) (fmtDst dst)) ∧
    (∀ e ∈ display_info_writes h w x y cs alt spd dst, e.1 < w) := by
  refine ⟨?_, ?_, ?_, ?_⟩
  · intro hlow
    unfold display_info_writes
    rw [if_neg (by omega : ¬(0 ≤ y - 5 ∧ y - 5 < h))]
  · intro hhigh
    unfold display_info_writes
    rw [if_neg (by omega : ¬(0 ≤ y - 5 ∧ y - 5 < h))]
  · intro h1 h2
    unfold display_info_writes
    rw [if_pos ⟨h1, h2⟩]
  · intro e he
    unfold display_info_writes at he
    by_cases hg : 0 ≤ y - 5 ∧ y - 5 < h
    · rw [if_pos hg] at he
      rcases List.mem_append.mp he with he1 | hm
      · rcases List.mem_append.mp he1 with he2 | hm
        · rcases List.mem_append.mp he2 with hm | hm
          · exact writeLine_col_lt _ _ _ _ _ hm
          · exact writeLine_col_lt _ _ _ _ _ hm
        · exact writeLine_col_lt _ _ _ _ _ hm
      · exact writeLine_col_lt _ _ _ _ _ hm
    · rw [if_neg hg] at he
      exact absurd he (List.not_mem_nil _)

/-- C6 witness: a fully in-range anchor emits exactly the four clipped
label rows. -/
theorem display_info_block_witness :
    (0 : ℤ) ≤ 10 - 5 ∧ (10 : ℤ) - 5 < 120 ∧
    display_info_writes 120 240 3 10 ("SWR".data) 2000 70 ("9".data) =
      writeLine 240 (10 - 5) ((3 + 1) * 2) (("SWR".data).take 8) ++
      writeLine 240 (10 - 4) ((3 + 1) * 2) (fmtAlt 2000) ++
      writeLine 240 (10 - 3) ((3 + 1) * 2) (fmtSpd 70) ++
      writeLine 240 (10 - 2) ((3 + 1) * 2) (fmtDst ("9".data)) :=
  ⟨by decide, by decide,
    (display_info_block 120 240 3 10 ("SWR".data) 2000 70 ("9".data)).2.2.1
      (by decide) (by decide)⟩

/-- C9: evaluation of display_info at the failing input height 120,
width 240, anchor (0, 124): the guard only checks row y - 5 = 119, so
the altitude row lands on row 120, outside the 0..119 row range of the
canvas; the first altitude character is written at (2, 120). -/
theorem display_info_write_out_of_bounds :
    ((2 : ℤ), (120 : ℤ), 'A') ∈ display_info_writes 120 240 0 124 ("Q".data) 7 8 ("3".data) ∧
      ¬((120 : ℤ) < 120) := ⟨by decide, by decide⟩

/-- C5: for every latitude and longitude (and any value of the projected
cosine factor), the clamped screen coordinates lie in [0, width/2) and
[6, height); and the reference point itself projects exactly to the
center marker cell (width/4, height/2). -/
theorem latlon_to_screen_clamped (c lat lon : ℚ) (w h : ℤ) (hw : 2 ≤ w) (hh : 7 ≤ h) :
    (0 ≤ (latlon_to_screen c lat lon w h).1 ∧
      (latlon_to_screen c lat lon w h).1 < w.tdiv 2 ∧
      6 ≤ (latlon_to_screen c lat lon w h).2 ∧
      (latlon_to_screen c lat lon w h).2 < h) ∧
    (12 ≤ h → latlon_to_screen c LSZH_LAT LSZH_LON w h = (w.tdiv 4, h.tdiv 2)) := by
  have ht2 : w.tdiv 2 = w / 2 := Int.tdiv_eq_ediv (by omega) (by omega)
  have ht4 : w.tdiv 4 = w / 4 := Int.tdiv_eq_ediv (by omega) (by omega)
  have hth : h.tdiv 2 = h / 2 := Int.tdiv_eq_ediv (by omega) (by omega)
  constructor
  · simp only [latlon_to_screen]
    rw [ht2]
    split_ifs <;> refine ⟨by omega, by omega, by omega, by omega⟩
  · intro h12
    have ht0 : truncQ 0 = 0 := by norm_num [truncQ]
    simp only [latlon_to_screen, sub_self, zero_mul, zero_div, ht0, add_zero, sub_zero]
    rw [ht2, ht4, hth]
    split_ifs <;> first | rfl | (exfalso; omega)

/-- C5 witness at the configured canvas size. -/
theorem latlon_to_screen_clamped_witness :
    (2 : ℤ) ≤ 240 ∧ (7 : ℤ) ≤ 120 ∧
    (0 ≤ (latlon_to_screen (676 / 1000) 50 9 240 120).1 ∧
      (latlon_to_screen (676 / 1000) 50 9 240 120).1 < (240 : ℤ).tdiv 2 ∧
      6 ≤ (latlon_to_screen (676 / 1000) 50 9 240 120).2 ∧
      (latlon_to_screen (676 / 1000) 50 9 240 120).2 < 120) ∧
    (12 ≤ (120 : ℤ) →
      latlon_to_screen (676 / 1000) LSZH_LAT LSZH_LON 240 120 =
        ((240 : ℤ).tdiv 4, (120 : ℤ).tdiv 2)) :=
  ⟨by decide, by decide,
    (latlon_to_screen_clamped (676 / 1000) 50 9 240 120 (by decide) (by decide)).1,
    (latlon_to_screen_clamped (676 / 1000) 50 9 240 120 (by decide) (by decide)).2⟩

/-- Value of a cell after folding the sweep radius loop over any list of
radii: if some radius in the list lands on the in-bounds cell (x, y), the
cell holds the pending value at (x, y); otherwise it is untouched.  Both
channels behave identically. -/
theorem sweep_foldl_cell (wd ht : ℤ) (X Y : ℕ → ℤ) (pending : Canvas) (rs : List ℕ)
    (vis : Canvas) (x y : ℤ) :
    ((rs.foldl (sweepWrite wd ht X Y pending) vis).sym x y =
        if ∃ r ∈ rs, hitsCell wd ht X Y x y r then pending.sym x y else vis.sym x y) ∧
    ((rs.foldl (sweepWrite wd ht X Y pending) vis).wx x y =
        if ∃ r ∈ rs, hitsCell wd ht X Y x y r then pending.wx x y else vis.wx x y) := by
  induction rs generalizing vis with
  | nil => simp
  | cons r rs ih =>
    obtain ⟨ih1, ih2⟩ := ih (sweepWrite wd ht X Y pending vis r)
    rw [List.foldl_cons]
    have hsym : (sweepWrite wd ht X Y pending vis r).sym x y =
        if hitsCell wd ht X Y x y r then pending.sym x y else vis.sym x y := by
      unfold sweepWrite
      split_ifs with hg hr hr
      · obtain ⟨hx1, hy1, hb⟩ := hr
        simp [hx1, hy1]
      · dsimp only
        rw [if_neg]
        rintro ⟨hx1, hy1⟩
        exact hr ⟨hx1.symm, hy1.symm, by rw [hx1]; exact hg.1, by rw [hx1]; exact hg.2.1,
          by rw [hy1]; exact hg.2.2.1, by rw [hy1]; exact hg.2.2.2⟩
      · obtain ⟨hx1, hy1, hb1, hb2, hb3, hb4⟩ := hr
        exact absurd ⟨hx1 ▸ hb1, hx1 ▸ hb2, hy1 ▸ hb3, hy1 ▸ hb4⟩ hg
      · rfl
    have hwx : (sweepWrite wd ht X Y pending vis r).wx x y =
        if hitsCell wd ht X Y x y r then pending.wx x y else vis.wx x y := by
      unfold sweepWrite
      split_ifs with hg hr hr
      · obtain ⟨hx1, hy1, hb⟩ := hr
        simp [hx1, hy1]
      · dsimp only
        rw [if_neg]
        rintro ⟨hx1, hy1⟩
        exact hr ⟨hx1.symm, hy1.symm, by rw [hx1]; exact hg.1, by rw [hx1]; exact hg.2.1,
          by rw [hy1]; exact hg.2.2.1, by rw [hy1]; exact hg.2.2.2⟩
      · obtain ⟨hx1, hy1, hb1, hb2, hb3, hb4⟩ := hr
        exact absurd ⟨hx1 ▸ hb1, hx1 ▸ hb2, hy1 ▸ hb3, hy1 ▸ hb4⟩ hg
      · rfl
    have hmem : (∃ r2 ∈ r :: rs, hitsCell wd ht X Y x y r2) ↔
        (hitsCell wd ht X Y x y r ∨ ∃ r2 ∈ rs, hitsCell wd ht X Y x y r2) :=
      List.exists_mem_cons_iff _ _ _
    constructor
    · rw [ih1, hsym]
      by_cases hrest : ∃ r2 ∈ rs, hitsCell wd ht X Y x y r2
      · rw [if_pos hrest, if_pos (hmem.mpr (Or.inr hrest))]
      · rw [if_neg hrest]
        by_cases hr : hitsCell wd ht X Y x y r
        · rw [if_pos hr, if_pos (hmem.mpr (Or.inl hr))]
        · rw [if_neg hr, if_neg (fun hc => (hmem.mp hc).elim hr hrest)]
    · rw [ih2, hwx]
      by_cases hrest : ∃ r2 ∈ rs, hitsCell wd ht X Y x y r2
      · rw [if_pos hrest, if_pos (hmem.mpr (Or.inr hrest))]
      · rw [if_neg hrest]
        by_cases hr : hitsCell wd ht X Y x y r
        · rw [if_pos hr, if_pos (hmem.mpr (Or.inl hr))]
        · rw [if_neg hr, if_neg (fun hc => (hmem.mp hc).elim hr hrest)]

/-- C1: in one angle step of the sweep, whenever some radius between 0
and maxR lands on the in-bounds cell (x, y), the cell ends the step
holding the pending value at (x, y) in both channels: every aliased
write copies the same pending cell, so the last (highest-radius) write
leaves exactly the pending value. -/
theorem sweep_step_last_write_wins (wd ht : ℤ) (X Y : ℕ → ℤ) (maxR : ℕ)
    (pending vis : Canvas) (x y : ℤ)
    (hhit : ∃ r, r ≤ maxR ∧ hitsCell wd ht X Y x y r) :
    (sonar_sweep_step wd ht X Y maxR pending vis).sym x y = pending.sym x y ∧
    (sonar_sweep_step wd ht X Y maxR pending vis).wx x y = pending.wx x y := by
  obtain ⟨r, hle, hh⟩ := hhit
  have hmem : ∃ r2 ∈ List.range (maxR + 1), hitsCell wd ht X Y x y r2 :=
    ⟨r, List.mem_range.mpr (Nat.lt_succ_of_le hle), hh⟩
  obtain ⟨h1, h2⟩ := sweep_foldl_cell wd ht X Y pending (List.range (maxR + 1)) vis x y
  unfold sonar_sweep_step
  rw [h1, h2, if_pos hmem, if_pos hmem]
  exact ⟨rfl, rfl⟩

/-- Rasterization map of the sweep at angle zero: cos is 1 and sin is 0,
so radius r lands on column r of the center row. -/
def sweepXW : ℕ → ℤ := fun r => (r : ℤ)

/-- Row map of the witness angle: constantly row 1. -/
def sweepYW : ℕ → ℤ := fun _ => 1

/-- Concrete pending canvas for the sweep witness. -/
def pendW : Canvas := { sym := fun _ _ => 'P', wx := fun _ _ => 3 }

/-- Concrete visible canvas for the sweep witness. -/
def visW : Canvas := { sym := fun _ _ => 'V', wx := fun _ _ => 0 }

/-- C1 witness: on a 4 x 4 grid with max radius 2, radius 2 lands on
cell (2, 1), and after the angle step the cell holds the pending value. -/
theorem sweep_step_last_write_wins_witness :
    (∃ r, r ≤ 2 ∧ hitsCell 4 4 sweepXW sweepYW 2 1 r) ∧
    (sonar_sweep_step 4 4 sweepXW sweepYW 2 pendW visW).sym 2 1 = pendW.sym 2 1 ∧
    (sonar_sweep_step 4 4 sweepXW sweepYW 2 pendW visW).wx 2 1 = pendW.wx 2 1 := by
  have hhit : ∃ r, r ≤ 2 ∧ hitsCell 4 4 sweepXW sweepYW 2 1 r :=
    ⟨2, le_refl 2, by constructor <;> norm_num [sweepXW, sweepYW]⟩
  exact ⟨hhit, sweep_step_last_write_wins 4 4 sweepXW sweepYW 2 pendW visW 2 1 hhit⟩

open Classical in
/-- Two-argument arctangent of libm, the model of the C atan2 call in
calculate_distance, with the standard quadrant corrections. -/
noncomputable def atan2 (y x : ℝ) : ℝ :=
  if 0 < x then Real.arctan (y / x)
  else if x < 0 then
    if 0 ≤ y then Real.arctan (y / x) + Real.pi else Real.arctan (y / x) - Real.pi
  else if 0 < y then Real.pi / 2
  else if y < 0 then -(Real.pi / 2)
  else 0

/-- Haversine great-circle distance of calculate_distance, over the reals
(the C doubles and libm calls modelled by exact real arithmetic), with
Earth radius 3440.065 nautical miles. -/
noncomputable def calculate_distance (lat1 lon1 lat2 lon2 : ℝ) : ℝ :=
  let dLat := (lat2 - lat1) * Real.pi / 180
  let dLon := (lon2 - lon1) * Real.pi / 180
  let l1 := lat1 * Real.pi / 180
  let l2 := lat2 * Real.pi / 180
  let a := Real.sin (dLat / 2) * Real.sin (dLat / 2) +
    Real.sin (dLon / 2) * Real.sin (dLon / 2) * Real.cos l1 * Real.cos l2
  let c := 2 * atan2 (Real.sqrt a) (Real.sqrt (1 - a))
  (3440.065 : ℝ) * c

/-- Value of atan2 at the point reached by a zero haversine argument. -/
theorem atan2_zero_one : atan2 0 1 = 0 := by
  rw [atan2, if_pos one_pos]
  simp [Real.arctan_zero]

/-- C4: the haversine distance of a point to itself is exactly zero, and
the distance function is symmetric in its two endpoints. -/
theorem calculate_distance_refl_symm :
    (∀ lat lon : ℝ, calculate_distance lat lon lat lon = 0) ∧
    (∀ a1 b1 a2 b2 : ℝ,
      calculate_distance a1 b1 a2 b2 = calculate_distance a2 b2 a1 b1) := by
  constructor
  · intro lat lon
    simp only [calculate_distance, sub_self, zero_mul, zero_div, Real.sin_zero, mul_zero,
      zero_add, add_zero, Real.sqrt_zero, sub_zero, Real.sqrt_one]
    rw [atan2_zero_one]
    ring
  · intro a1 b1 a2 b2
    have key : ∀ u v : ℝ, Real.sin ((u - v) * Real.pi / 180 / 2) *
        Real.sin ((u - v) * Real.pi / 180 / 2) =
        Real.sin ((v - u) * Real.pi / 180 / 2) * Real.sin ((v - u) * Real.pi / 180 / 2) := by
      intro u v
      have h : (u - v) * Real.pi / 180 / 2 = -((v - u) * Real.pi / 180 / 2) := by ring
      rw [h, Real.sin_neg]
      ring
    simp only [calculate_distance]
    rw [key a2 a1, key b2 b1]
    ring_nf

open Classical in
/-- Truncation toward zero of a real, the semantics of a C cast from
double to int. -/
noncomputable def truncR (r : ℝ) : ℤ := if 0 ≤ r then ⌊r⌋ else ⌈r⌉

open Classical in
/-- Candidate intensity one weather cell of fetch_weather_data
contributes at grid point (x, y): none outside the elliptical radius,
otherwise the truncated product of the base intensity and the linear
fade 1 - distance/radius.  The merge into the canvas is mergeWeather. -/
noncomputable def weatherCandidate (cell_x cell_y radius intensity x y : ℤ) : Option ℤ :=
  let dx : ℤ := x - cell_x * 2
  let dy : ℤ := y - cell_y
  let distance : ℝ := Real.sqrt ((dx : ℝ) * (dx : ℝ) / 4 + (dy : ℝ) * (dy : ℝ))
  if distance < (radius : ℝ) then
    some (truncR ((intensity : ℝ) * (1 - distance / (radius : ℝ))))
  else none

/-- At the exact center of a weather cell the distance is zero, the fade
is exactly one, and the full base intensity 5 is contributed. -/
theorem weatherCandidate_center_val : weatherCandidate 60 60 5 5 120 60 = some 5 := by
  have hdx : ((120 : ℤ) - 60 * 2) = 0 := by norm_num
  have hdy : ((60 : ℤ) - 60) = 0 := by norm_num
  simp only [weatherCandidate, hdx, hdy]
  norm_num [Real.sqrt_zero, truncR]

/-- C10 counterexample: the weather generator contributes intensity 5,
which exceeds the claimed bound of 4, at the center of a cell with base
intensity 5 (cell center (60, 60), radius 5, evaluated at grid point
(120, 60)); WEATHER_INTENSE is therefore reachable. -/
theorem weatherCandidate_exceeds_four :
    weatherCandidate 60 60 5 5 120 60 = some 5 ∧ ¬((5 : ℤ) ≤ 4) :=
  ⟨weatherCandidate_center_val, by norm_num⟩

/-- C10 amended: for generator parameters (base intensity in 1..5,
radius at least 5), every contributed intensity is at most 5, so
WEATHER_EXTREME (6) is unreachable through the synthetic generator,
while WEATHER_INTENSE (5) is attained at a cell center. -/
theorem weatherCandidate_le_intensity (cell_x cell_y radius intensity x y v : ℤ)
    (hi1 : 1 ≤ intensity) (hi5 : intensity ≤ 5) (hr : 5 ≤ radius)
    (hv : weatherCandidate cell_x cell_y radius intensity x y = some v) : v ≤ 5 := by
  simp only [weatherCandidate] at hv
  split_ifs at hv with hlt
  · have hv2 := Option.some.inj hv
    set d := Real.sqrt ((((x - cell_x * 2 : ℤ)) : ℝ) * (((x - cell_x * 2 : ℤ)) : ℝ) / 4 +
      (((y - cell_y : ℤ)) : ℝ) * (((y - cell_y : ℤ)) : ℝ)) with hd
    have hd0 : 0 ≤ d := Real.sqrt_nonneg _
    have hrpos : (0 : ℝ) < (radius : ℝ) := by exact_mod_cast (by omega : (0 : ℤ) < radius)
    have hfade : 1 - d / (radius : ℝ) ≤ 1 := by
      have : 0 ≤ d / (radius : ℝ) := div_nonneg hd0 hrpos.le
      linarith
    have hI : (0 : ℝ) ≤ (intensity : ℝ) := by exact_mod_cast (by omega : (0 : ℤ) ≤ intensity)
    have hprod : (intensity : ℝ) * (1 - d / (radius : ℝ)) ≤ (intensity : ℝ) := by
      calc (intensity : ℝ) * (1 - d / (radius : ℝ)) ≤ (intensity : ℝ) * 1 :=
            mul_le_mul_of_nonneg_left hfade hI
        _ = (intensity : ℝ) := mul_one _
    rw [← hv2]
    unfold truncR
    split_ifs with hpos
    · have h1 : ⌊(intensity : ℝ) * (1 - d / (radius : ℝ))⌋ ≤ ⌊(intensity : ℝ)⌋ :=
        Int.floor_le_floor hprod
      rw [Int.floor_intCast] at h1
      omega
    · have h1 : ⌈(intensity : ℝ) * (1 - d / (radius : ℝ))⌉ ≤ (0 : ℤ) :=
        Int.ceil_le.mpr (by push_cast; linarith [not_le.mp hpos])
      omega

/-- C10 witness: the bound applied at the concrete center contribution. -/
theorem weatherCandidate_le_intensity_witness :
    (1 : ℤ) ≤ 5 ∧ (5 : ℤ) ≤ 5 ∧ weatherCandidate 60 60 5 5 120 60 = some 5 ∧ (5 : ℤ) ≤ 5 :=
  ⟨by norm_num, by norm_num, weatherCandidate_center_val,
    weatherCandidate_le_intensity 60 60 5 5 120 60 5 (by norm_num) (by norm_num) (by norm_num)
      weatherCandidate_center_val⟩

end Radar
